import Mathlib

/-!
Verification of the beacondb ingestion/estimation pipeline.

Shallow embedding of the Rust sources over exact rational arithmetic:
* `src/bounds.rs` — `WeightedAverageBounds` (aka `TransmitterLocation`),
  the incremental weighted-mean estimate with bounding box;
* `src/model.rs` — transmitter keys and store lookup;
* `src/submission/report.rs` — observation filtering and signal extraction;
* `src/submission/process.rs` — the processing engine;
* `src/geolocate.rs` — the geolocation responder.

External geometry/transcendental library calls (`geo`'s haversine and
rhumb destination, `f64::powf`) are passed as function parameters, so
theorems quantify over them.
-/

namespace Beacondb

/-- Embedding of `WeightedAverageBounds` from `src/bounds.rs`:
bounding box plus incrementally maintained weighted mean. -/
structure WeightedAverageBounds where
  min_lat : ℚ
  min_lon : ℚ
  max_lat : ℚ
  max_lon : ℚ
  lat : ℚ
  lon : ℚ
  accuracy : ℚ
  total_weight : ℚ
  deriving DecidableEq, Repr

namespace WeightedAverageBounds

/-- `WeightedAverageBounds::new` (src/bounds.rs lines 74-87): zero-area
bounding box around a single point. -/
def new (lat lon accuracy weight : ℚ) : WeightedAverageBounds :=
  { min_lat := lat
    min_lon := lon
    max_lat := lat
    max_lon := lon
    lat := lat
    lon := lon
    accuracy := accuracy
    total_weight := weight }

/-- `impl Add<(f64, f64, f64, f64)> for WeightedAverageBounds`
(src/bounds.rs lines 97-122): bbox union with the new point (if/else-if)
followed by the online weighted-mean update; `total_weight += weight`. -/
def add (b : WeightedAverageBounds) : ℚ × ℚ × ℚ × ℚ → WeightedAverageBounds
  | (lat, lon, accuracy, weight) =>
    { min_lat := if lat < b.min_lat then lat else b.min_lat
      max_lat := if lat < b.min_lat then b.max_lat
                 else if lat > b.max_lat then lat else b.max_lat
      min_lon := if lon < b.min_lon then lon else b.min_lon
      max_lon := if lon < b.min_lon then b.max_lon
                 else if lon > b.max_lon then lon else b.max_lon
      lat := (b.lat * b.total_weight + lat * weight) / (b.total_weight + weight)
      lon := (b.lon * b.total_weight + lon * weight) / (b.total_weight + weight)
      accuracy := (b.accuracy * b.total_weight + accuracy * weight) /
                  (b.total_weight + weight)
      total_weight := b.total_weight + weight }

end WeightedAverageBounds

/-- Batch sum of the weights of a list of updates `(lat, lon, acc, weight)`. -/
def sumW (us : List (ℚ × ℚ × ℚ × ℚ)) : ℚ :=
  (us.map fun u => u.2.2.2).sum

/-- Batch sum `Σ latᵢ · wᵢ`. -/
def sumLatW (us : List (ℚ × ℚ × ℚ × ℚ)) : ℚ :=
  (us.map fun u => u.1 * u.2.2.2).sum

/-- Batch sum `Σ lonᵢ · wᵢ`. -/
def sumLonW (us : List (ℚ × ℚ × ℚ × ℚ)) : ℚ :=
  (us.map fun u => u.2.1 * u.2.2.2).sum

/-- Batch sum `Σ accᵢ · wᵢ`. -/
def sumAccW (us : List (ℚ × ℚ × ℚ × ℚ)) : ℚ :=
  (us.map fun u => u.2.2.1 * u.2.2.2).sum

lemma sumW_nonneg (us : List (ℚ × ℚ × ℚ × ℚ))
    (hw : ∀ u ∈ us, 0 < u.2.2.2) : 0 ≤ sumW us := by
  induction us with
  | nil => simp [sumW]
  | cons u us ih =>
    have h1 : 0 < u.2.2.2 := hw u (List.mem_cons_self u us)
    have h2 : 0 ≤ sumW us := ih fun v hv => hw v (List.mem_cons_of_mem u hv)
    simp only [sumW, List.map_cons, List.sum_cons] at *
    linarith

/-- Core invariant of the incremental update: the fold of `add` tracks the
batch sums of weights, and of weighted latitudes, longitudes, accuracies. -/
lemma foldl_add_sums (us : List (ℚ × ℚ × ℚ × ℚ)) :
    ∀ b : WeightedAverageBounds, 0 < b.total_weight →
    (∀ u ∈ us, 0 < u.2.2.2) →
    (us.foldl WeightedAverageBounds.add b).total_weight
        = b.total_weight + sumW us
    ∧ (us.foldl WeightedAverageBounds.add b).lat *
        (us.foldl WeightedAverageBounds.add b).total_weight
        = b.lat * b.total_weight + sumLatW us
    ∧ (us.foldl WeightedAverageBounds.add b).lon *
        (us.foldl WeightedAverageBounds.add b).total_weight
        = b.lon * b.total_weight + sumLonW us
    ∧ (us.foldl WeightedAverageBounds.add b).accuracy *
        (us.foldl WeightedAverageBounds.add b).total_weight
        = b.accuracy * b.total_weight + sumAccW us := by
  induction us with
  | nil => intro b hb _; simp [sumW, sumLatW, sumLonW, sumAccW]
  | cons u us ih =>
    intro b hb hw
    obtain ⟨l, lo, a, w⟩ := u
    have hwpos : (0:ℚ) < w := hw (l, lo, a, w) (List.mem_cons_self _ _)
    have hb' : 0 < (b.add (l, lo, a, w)).total_weight := by
      simp only [WeightedAverageBounds.add]; linarith
    have hsum : b.total_weight + w ≠ 0 := by positivity
    have ihw : ∀ v ∈ us, 0 < v.2.2.2 :=
      fun v hv => hw v (List.mem_cons_of_mem _ hv)
    obtain ⟨h1, h2, h3, h4⟩ := ih (b.add (l, lo, a, w)) hb' ihw
    have e0 : (b.add (l, lo, a, w)).total_weight = b.total_weight + w := rfl
    have e1 : (b.add (l, lo, a, w)).lat * (b.add (l, lo, a, w)).total_weight
        = b.lat * b.total_weight + l * w := by
      simp only [WeightedAverageBounds.add]
      field_simp
    have e2 : (b.add (l, lo, a, w)).lon * (b.add (l, lo, a, w)).total_weight
        = b.lon * b.total_weight + lo * w := by
      simp only [WeightedAverageBounds.add]
      field_simp
    have e3 : (b.add (l, lo, a, w)).accuracy * (b.add (l, lo, a, w)).total_weight
        = b.accuracy * b.total_weight + a * w := by
      simp only [WeightedAverageBounds.add]
      field_simp
    refine ⟨?_, ?_, ?_, ?_⟩
    · rw [List.foldl_cons, h1, e0]
      simp only [sumW, List.map_cons, List.sum_cons]
      ring
    · rw [List.foldl_cons, h2, e1]
      simp only [sumLatW, List.map_cons, List.sum_cons]
      ring
    · rw [List.foldl_cons, h3, e2]
      simp only [sumLonW, List.map_cons, List.sum_cons]
      ring
    · rw [List.foldl_cons, h4, e3]
      simp only [sumAccW, List.map_cons, List.sum_cons]
      ring

/-- C1: starting from a single-point estimate `new lat0 lon0 acc0 w0` with
`w0 > 0` and applying any sequence of positive-weight updates with
`WeightedAverageBounds::add`, the incremental `(lat, lon, accuracy,
total_weight)` equals the batch weighted mean `Σxᵢwᵢ/Σwᵢ` over all
contributing points, exactly over exact (rational) arithmetic, and the
final `total_weight` equals `Σwᵢ`. -/
theorem c1_incremental_matches_batch
    (lat0 lon0 acc0 w0 : ℚ) (us : List (ℚ × ℚ × ℚ × ℚ))
    (h0 : 0 < w0) (hw : ∀ u ∈ us, 0 < u.2.2.2) :
    (us.foldl WeightedAverageBounds.add
        (WeightedAverageBounds.new lat0 lon0 acc0 w0)).total_weight
      = w0 + sumW us
    ∧ (us.foldl WeightedAverageBounds.add
        (WeightedAverageBounds.new lat0 lon0 acc0 w0)).lat
      = (lat0 * w0 + sumLatW us) / (w0 + sumW us)
    ∧ (us.foldl WeightedAverageBounds.add
        (WeightedAverageBounds.new lat0 lon0 acc0 w0)).lon
      = (lon0 * w0 + sumLonW us) / (w0 + sumW us)
    ∧ (us.foldl WeightedAverageBounds.add
        (WeightedAverageBounds.new lat0 lon0 acc0 w0)).accuracy
      = (acc0 * w0 + sumAccW us) / (w0 + sumW us) := by
  have hb : 0 < (WeightedAverageBounds.new lat0 lon0 acc0 w0).total_weight := h0
  obtain ⟨h1, h2, h3, h4⟩ := foldl_add_sums us _ hb hw
  have hs : 0 ≤ sumW us := sumW_nonneg us hw
  have htw : (0:ℚ) < w0 + sumW us := by linarith
  have htw' : w0 + sumW us ≠ 0 := ne_of_gt htw
  simp only [WeightedAverageBounds.new] at h1 h2 h3 h4
  refine ⟨h1, ?_, ?_, ?_⟩
  · rw [eq_div_iff htw', ← h1]; exact h2
  · rw [eq_div_iff htw', ← h1]; exact h3
  · rw [eq_div_iff htw', ← h1]; exact h4

/-- Concrete instance of C1 with all hypotheses discharged. -/
theorem c1_witness :
    (([((2:ℚ), 3, 4, 1), (4, 5, 6, 3)] : List (ℚ × ℚ × ℚ × ℚ)).foldl
        WeightedAverageBounds.add
        (WeightedAverageBounds.new 0 1 2 4)).total_weight
      = 4 + sumW [((2:ℚ), 3, 4, 1), (4, 5, 6, 3)]
    ∧ (([((2:ℚ), 3, 4, 1), (4, 5, 6, 3)] : List (ℚ × ℚ × ℚ × ℚ)).foldl
        WeightedAverageBounds.add
        (WeightedAverageBounds.new 0 1 2 4)).lat
      = (0 * 4 + sumLatW [((2:ℚ), 3, 4, 1), (4, 5, 6, 3)]) /
        (4 + sumW [((2:ℚ), 3, 4, 1), (4, 5, 6, 3)])
    ∧ (([((2:ℚ), 3, 4, 1), (4, 5, 6, 3)] : List (ℚ × ℚ × ℚ × ℚ)).foldl
        WeightedAverageBounds.add
        (WeightedAverageBounds.new 0 1 2 4)).lon
      = (1 * 4 + sumLonW [((2:ℚ), 3, 4, 1), (4, 5, 6, 3)]) /
        (4 + sumW [((2:ℚ), 3, 4, 1), (4, 5, 6, 3)])
    ∧ (([((2:ℚ), 3, 4, 1), (4, 5, 6, 3)] : List (ℚ × ℚ × ℚ × ℚ)).foldl
        WeightedAverageBounds.add
        (WeightedAverageBounds.new 0 1 2 4)).accuracy
      = (2 * 4 + sumAccW [((2:ℚ), 3, 4, 1), (4, 5, 6, 3)]) /
        (4 + sumW [((2:ℚ), 3, 4, 1), (4, 5, 6, 3)]) :=
  c1_incremental_matches_batch 0 1 2 4 [((2:ℚ), 3, 4, 1), (4, 5, 6, 3)]
    (by decide) (by decide)

/-- The estimate invariants of the spec's data model: the weighted mean lies
inside the bounding box and the accumulated weight is positive. -/
def EstimateInv (b : WeightedAverageBounds) : Prop :=
  b.min_lat ≤ b.lat ∧ b.lat ≤ b.max_lat ∧
  b.min_lon ≤ b.lon ∧ b.lon ≤ b.max_lon ∧
  0 < b.total_weight

instance (b : WeightedAverageBounds) : Decidable (EstimateInv b) := by
  unfold EstimateInv; infer_instance

lemma convex_lower (a b lo W w : ℚ) (ha : lo ≤ a) (hb : lo ≤ b)
    (hW : 0 < W) (hw : 0 < w) : lo ≤ (a * W + b * w) / (W + w) := by
  have hWw : (0:ℚ) < W + w := by linarith
  rw [le_div_iff₀ hWw]; nlinarith

lemma convex_upper (a b hi W w : ℚ) (ha : a ≤ hi) (hb : b ≤ hi)
    (hW : 0 < W) (hw : 0 < w) : (a * W + b * w) / (W + w) ≤ hi := by
  have hWw : (0:ℚ) < W + w := by linarith
  rw [div_le_iff₀ hWw]; nlinarith

/-- C9: `WeightedAverageBounds::add` preserves the estimate invariants for
any positive-weight update, and `WeightedAverageBounds::new` establishes
them for any positive initial weight. -/
theorem c9_estimate_invariants_preserved :
    (∀ (b : WeightedAverageBounds) (u : ℚ × ℚ × ℚ × ℚ),
      EstimateInv b → 0 < u.2.2.2 → EstimateInv (b.add u)) ∧
    (∀ lat lon acc w : ℚ, 0 < w →
      EstimateInv (WeightedAverageBounds.new lat lon acc w)) := by
  constructor
  · rintro b ⟨ul, uo, ua, uw⟩ ⟨h1, h2, h3, h4, h5⟩ hw
    have hw' : (0:ℚ) < uw := hw
    simp only [EstimateInv, WeightedAverageBounds.add]
    refine ⟨?_, ?_, ?_, ?_, by linarith⟩
    · split_ifs with hlt
      · exact convex_lower b.lat ul ul b.total_weight uw (by linarith)
          le_rfl h5 hw'
      · exact convex_lower b.lat ul b.min_lat b.total_weight uw h1
          (not_lt.mp hlt) h5 hw'
    · split_ifs with hlt hgt
      · exact convex_upper b.lat ul b.max_lat b.total_weight uw h2
          (by linarith) h5 hw'
      · exact convex_upper b.lat ul ul b.total_weight uw (by linarith)
          le_rfl h5 hw'
      · exact convex_upper b.lat ul b.max_lat b.total_weight uw h2
          (not_lt.mp hgt) h5 hw'
    · split_ifs with hlt
      · exact convex_lower b.lon uo uo b.total_weight uw (by linarith)
          le_rfl h5 hw'
      · exact convex_lower b.lon uo b.min_lon b.total_weight uw h3
          (not_lt.mp hlt) h5 hw'
    · split_ifs with hlt hgt
      · exact convex_upper b.lon uo b.max_lon b.total_weight uw h4
          (by linarith) h5 hw'
      · exact convex_upper b.lon uo uo b.total_weight uw (by linarith)
          le_rfl h5 hw'
      · exact convex_upper b.lon uo b.max_lon b.total_weight uw h4
          (not_lt.mp hgt) h5 hw'
  · intro lat lon acc w hw
    exact ⟨le_rfl, le_rfl, le_rfl, le_rfl, hw⟩

/-- Concrete instance of C9 with all hypotheses discharged. -/
theorem c9_witness :
    EstimateInv
      ((WeightedAverageBounds.new 1 2 3 4).add ((5:ℚ), 6, 7, 8)) :=
  c9_estimate_invariants_preserved.1 (WeightedAverageBounds.new 1 2 3 4)
    ((5:ℚ), 6, 7, 8)
    (c9_estimate_invariants_preserved.2 1 2 3 4 (by decide))
    (by decide)

/-- `RadioType` from `src/submission/report.rs` (wire enum `gsm | wcdma
(umts) | lte | nr`). -/
inductive RadioType where
  | gsm
  | umts
  | lte
  | nr
  deriving DecidableEq, Repr

/-- The deserialised cell-tower observation from `src/submission/report.rs`
(struct `Cell`). Unsigned integers as `Nat`, `i16` as `Int`. -/
structure Cell where
  radio_type : RadioType
  mobile_country_code : Nat
  mobile_network_code : Nat
  location_area_code : Option Nat
  cell_id : Option Nat
  primary_scrambling_code : Option Nat
  age : Option Nat
  signal_strength : Option Int
  asu : Option Int
  deriving DecidableEq, Repr

/-- `signal_strength` from `src/submission/report.rs` lines 118-160: use
the reported dBm when present, otherwise derive it from the ASU with
`asu == 99` meaning unknown. -/
def signal_strength (cell : Cell) : Option Int :=
  match cell.signal_strength with
  | some _ => cell.signal_strength
  | none =>
    match cell.asu with
    | some asu =>
      if asu = 99 then none
      else
        match cell.radio_type with
        | .gsm => some (2 * asu - 113)
        | .umts => some (asu - 120)
        | .lte => some (asu - 140)
        | .nr => some (asu - 140)
    | none => none

/-- C8: with `signal_strength` absent and `asu` present, the derived dBm is
`2·asu − 113` for gsm, `asu − 120` for wcdma, `asu − 140` for lte and nr,
with `asu = 99` yielding no signal; a present `signal_strength` is always
used and `asu` ignored. -/
theorem c8_cell_signal_extraction (cell : Cell) :
    (∀ s, cell.signal_strength = some s → signal_strength cell = some s) ∧
    (cell.signal_strength = none → cell.asu = some 99 →
      signal_strength cell = none) ∧
    (∀ a, cell.signal_strength = none → cell.asu = some a → a ≠ 99 →
      signal_strength cell = some
        (match cell.radio_type with
         | .gsm => 2 * a - 113
         | .umts => a - 120
         | .lte => a - 140
         | .nr => a - 140)) := by
  refine ⟨?_, ?_, ?_⟩
  · intro s hs
    simp [signal_strength, hs]
  · intro hnone h99
    simp [signal_strength, hnone, h99]
  · intro a hnone ha hne
    cases hr : cell.radio_type <;> simp [signal_strength, hnone, ha, hne, hr]

/-- Concrete instance of C8 (the source's own test vector: gsm, asu 15,
yielding −83 dBm) with all hypotheses discharged. -/
theorem c8_witness :
    signal_strength
      { radio_type := .gsm, mobile_country_code := 0,
        mobile_network_code := 0, location_area_code := none,
        cell_id := none, primary_scrambling_code := none, age := none,
        signal_strength := none, asu := some 15 } = some (-83) := by
  have h := (c8_cell_signal_extraction
    { radio_type := .gsm, mobile_country_code := 0,
      mobile_network_code := 0, location_area_code := none,
      cell_id := none, primary_scrambling_code := none, age := none,
      signal_strength := none, asu := some 15 }).2.2 15 rfl rfl (by decide)
  simpa using h

/-- The NUL character stripped from SSIDs (`x.replace('\0', "")`). -/
def nulChar : Char := Char.ofNat 0

/-- Substring containment on character lists, the semantics of Rust's
`str::contains` with a literal pattern: the needle occurs contiguously
somewhere in the haystack. -/
def containsSeq (needle : List Char) : List Char → Bool
  | [] => needle.isEmpty
  | c :: rest => needle.isPrefixOf (c :: rest) || containsSeq needle rest

/-- The Wi-Fi keep decision from `extract` in `src/submission/report.rs`
lines 198-214, on the SSID as a character list: strip NUL bytes, treat an
empty result as a hidden network (`filter(|x| !x.is_empty())`), and push
the observation only when an SSID remains that contains neither `_nomap`
nor `_optout` (`ssid.is_some_and(..)`). -/
def wifiKept (ssid : Option (List Char)) : Bool :=
  let normalized : Option (List Char) :=
    match ssid.map (fun x => x.filter (fun c => c != nulChar)) with
    | some x => if x.isEmpty then none else some x
    | none => none
  match normalized with
  | some x =>
      !(containsSeq "_nomap".toList x) && !(containsSeq "_optout".toList x)
  | none => false

/-- The drop rule in the words of the claim (for comparison with the
source-derived `wifiKept`): an observation is dropped exactly when its
NUL-stripped SSID contains `_nomap` or `_optout`; absent or
empty-after-stripping SSIDs are not dropped. -/
def claimWifiDropped (ssid : Option (List Char)) : Bool :=
  match ssid.map (fun x => x.filter (fun c => c != nulChar)) with
  | some x => containsSeq "_nomap".toList x || containsSeq "_optout".toList x
  | none => false

lemma wifiKept_some (s : List Char) :
    wifiKept (some s) =
      (!(s.filter (fun c => c != nulChar)).isEmpty &&
       (!containsSeq "_nomap".toList (s.filter (fun c => c != nulChar)) &&
        !containsSeq "_optout".toList (s.filter (fun c => c != nulChar)))) := by
  unfold wifiKept
  simp only [Option.map_some']
  by_cases he : (s.filter (fun c => c != nulChar)).isEmpty
  · simp [he]
  · simp [he]

/-- C7 counterexample: for an absent SSID the claim says the observation
is kept (not dropped), but `extract` does not push it — hidden networks
are dropped by the code. -/
theorem c7_counterexample :
    claimWifiDropped none = false ∧ wifiKept none = false := by
  constructor <;> rfl

/-- C7 amended: a Wi-Fi observation is kept exactly when its SSID is
present, non-empty after NUL-stripping, and the stripped SSID contains
neither `_nomap` nor `_optout`; absent or hidden (empty-after-stripping)
SSIDs are dropped. -/
theorem c7_amended_wifi_filter (ssid : Option (List Char)) :
    wifiKept ssid = true ↔
      ∃ s, ssid = some s ∧
        (s.filter (fun c => c != nulChar)).isEmpty = false ∧
        containsSeq "_nomap".toList (s.filter (fun c => c != nulChar)) = false ∧
        containsSeq "_optout".toList (s.filter (fun c => c != nulChar)) = false := by
  cases ssid with
  | none => simp [wifiKept]
  | some s =>
    rw [wifiKept_some]
    constructor
    · intro h
      simp only [Bool.and_eq_true, Bool.not_eq_true'] at h
      exact ⟨s, rfl, h.1, h.2.1, h.2.2⟩
    · rintro ⟨t, ht, h1, h2, h3⟩
      injection ht with ht
      subst ht
      simp only [h1, Bool.not_false, Bool.true_and, Bool.and_eq_true,
        Bool.not_eq_true']
      exact ⟨h2, h3⟩

/-- The deserialised GNSS position from `src/submission/report.rs`
(struct `Position`): degrees/metres as rationals, ages in milliseconds. -/
structure Position where
  latitude : ℚ
  longitude : ℚ
  speed : Option ℚ
  age : Option Nat
  accuracy : Option ℚ
  heading : Option ℚ
  deriving DecidableEq, Repr

/-- The position credited to a transmitter by the engine
(`src/submission/process.rs` lines 108-144): when speed, the observation
age, the position age, and the heading are all present, displace the
report position by `-(speed * (age_obs - age_pos) / 1000)` metres along
the heading with the rhumb-line destination (the `geo` crate's
`Rhumb.destination`, passed here as a parameter); otherwise use the
report position verbatim. -/
def creditedPosition (rhumbDestination : ℚ → ℚ → ℚ → ℚ → ℚ × ℚ)
    (pos : Position) (obsAge : Option Int) : ℚ × ℚ :=
  match pos.speed, obsAge, pos.age with
  | some speed, some wifi_age, some pos_age =>
    let distance_since_scan := speed * ((wifi_age : ℚ) - (pos_age : ℚ)) / 1000
    match pos.heading with
    | some heading =>
        rhumbDestination pos.latitude pos.longitude heading (-distance_since_scan)
    | none => (pos.latitude, pos.longitude)
  | _, _, _ => (pos.latitude, pos.longitude)

/-- C3: with speed, heading, position age and observation age all present
the credited position is the rhumb-line destination from the report
position along the heading displaced by `-(speed·(age_obs − age_pos)/1000)`
metres; if any of the four is absent, the report position is used
unchanged. -/
theorem c3_reverse_dead_reckoning
    (rhumbDestination : ℚ → ℚ → ℚ → ℚ → ℚ × ℚ)
    (pos : Position) (obsAge : Option Int) :
    (∀ s w p h, pos.speed = some s → obsAge = some w → pos.age = some p →
      pos.heading = some h →
      creditedPosition rhumbDestination pos obsAge =
        rhumbDestination pos.latitude pos.longitude h
          (-(s * ((w : ℚ) - (p : ℚ)) / 1000))) ∧
    ((pos.speed = none ∨ obsAge = none ∨ pos.age = none ∨
        pos.heading = none) →
      creditedPosition rhumbDestination pos obsAge =
        (pos.latitude, pos.longitude)) := by
  constructor
  · intro s w p h hs hw hp hh
    simp [creditedPosition, hs, hw, hp, hh]
  · intro hcase
    rcases hs : pos.speed with _ | s
    · simp [creditedPosition, hs]
    · rcases hw : obsAge with _ | w
      · simp [creditedPosition, hs, hw]
      · rcases hp : pos.age with _ | p
        · simp [creditedPosition, hs, hw, hp]
        · rcases hh : pos.heading with _ | hd
          · simp [creditedPosition, hs, hw, hp, hh]
          · rcases hcase with h | h | h | h <;> simp_all

/-- Concrete instance of C3 with all hypotheses discharged. -/
theorem c3_witness :
    creditedPosition (fun la lo h d => (la + d, lo + h))
      { latitude := 1, longitude := 2, speed := some 10, age := some 3,
        accuracy := none, heading := some 90 } (some 1003)
      = ((-9 : ℚ), 92) := by
  have h := (c3_reverse_dead_reckoning (fun la lo h d => (la + d, lo + h))
    { latitude := 1, longitude := 2, speed := some 10, age := some 3,
      accuracy := none, heading := some 90 } (some 1003)).1
    10 1003 3 90 rfl rfl rfl rfl
  rw [h]
  norm_num

/-- `CellRadio` from `src/model.rs` (persisted as `gsm=2, wcdma=3, lte=4,
nr=5`). -/
inductive CellRadio where
  | gsm
  | wcdma
  | lte
  | nr
  deriving DecidableEq, Repr

/-- `Transmitter` from `src/model.rs`: tagged union of a cell tower key, a
Wi-Fi MAC and a Bluetooth MAC, carrying the observed signal strength and
age. MAC addresses are modelled as their 48-bit numeric value. -/
inductive Transmitter where
  | Cell (radio : CellRadio) (country : Int) (network : Int) (area : Int)
      (cell : Int) (unit : Int) (signal_strength : Option Int)
      (age : Option Int)
  | Wifi (mac : Nat) (signal_strength : Option Int) (age : Option Int)
  | Bluetooth (mac : Nat) (signal_strength : Option Int) (age : Option Int)
  deriving DecidableEq, Repr

/-- The three transmitter tables of the database (`cell`, `wifi`,
`bluetooth`), each mapping its key to the stored estimate row. -/
structure Store where
  cellTable : CellRadio → Int → Int → Int → Int → Int →
    Option WeightedAverageBounds
  wifiTable : Nat → Option WeightedAverageBounds
  bluetoothTable : Nat → Option WeightedAverageBounds

/-- The store with all three tables empty. -/
def emptyStore : Store :=
  { cellTable := fun _ _ _ _ _ _ => none
    wifiTable := fun _ => none
    bluetoothTable := fun _ => none }

/-- `Transmitter::lookup` from `src/model.rs` lines 51-90. Note that the
`Bluetooth` branch (line 81) selects `from wifi where mac = $1` — it reads
the *wifi* table, not the bluetooth table. -/
def Transmitter.lookup (t : Transmitter) (store : Store) :
    Option WeightedAverageBounds :=
  match t with
  | .Cell radio country network area cell unit _ _ =>
      store.cellTable radio country network area cell unit
  | .Wifi mac _ _ => store.wifiTable mac
  | .Bluetooth mac _ _ => store.wifiTable mac

/-- The engine's flush of a modified estimate
(`src/submission/process.rs` lines 191-244): an `insert .. on conflict ..
do update` into the table matching the transmitter's variant, keyed by the
composite cell key, the Wi-Fi MAC, or the Bluetooth MAC respectively. -/
def Store.upsert (store : Store) (t : Transmitter)
    (b : WeightedAverageBounds) : Store :=
  match t with
  | .Cell radio country network area cell unit _ _ =>
      { store with cellTable := fun r c n a ce u =>
          if (r, c, n, a, ce, u) = (radio, country, network, area, cell, unit)
          then some b else store.cellTable r c n a ce u }
  | .Wifi mac _ _ =>
      { store with wifiTable := fun m =>
          if m = mac then some b else store.wifiTable m }
  | .Bluetooth mac _ _ =>
      { store with bluetoothTable := fun m =>
          if m = mac then some b else store.bluetoothTable m }

/-- C2 failing input: upserting an estimate under a Bluetooth key and then
looking the same key up returns nothing (the write went to the `bluetooth`
table while the lookup reads the `wifi` table), and a lookup of a
Bluetooth key returns a row written under a Wi-Fi key with the same MAC —
both directions of the claim fail on the code. -/
theorem c2_bluetooth_lookup_reads_wifi_table :
    (Transmitter.Bluetooth 1 none none).lookup
        (emptyStore.upsert (Transmitter.Bluetooth 1 none none)
          (WeightedAverageBounds.new 10 20 30 4)) = none ∧
    (Transmitter.Bluetooth 1 none none).lookup
        (emptyStore.upsert (Transmitter.Wifi 1 none none)
          (WeightedAverageBounds.new 10 20 30 4))
      = some (WeightedAverageBounds.new 10 20 30 4) := by
  constructor <;> rfl

/-- The argument of `10_f64.powf` in the responder's Wi-Fi weight
(`src/geolocate.rs` lines 176-178):
`x.signal_strength.unwrap_or_default() as f64 / (10.0 *
SIGNAL_DROP_COEFFICIENT)` — a missing signal defaults to `0`. -/
def responderSignalExponent (signal : Option Int) : ℚ :=
  (signal.getD 0 : ℚ) / (10 * 3)

/-- The argument of `10_f64.powf` in the engine's signal weight
(`src/submission/process.rs` lines 106 and 150):
`rssi = x.signal_strength().unwrap_or(-90)`, weight exponent
`rssi / (10.0 * SIGNAL_DROP_COEFFICIENT)`. -/
def engineSignalExponent (signal : Option Int) : ℚ :=
  (signal.getD (-90) : ℚ) / (10 * 3)

/-- C6 counterexample: for an absent signal the responder's weight
exponent is `0/(10·3) = 0` (weight `10^0 = 1`), not the engine's
`−90/(10·3) = −3` (weight `10^(−90/30)`): the two defaulting rules
disagree. -/
theorem c6_counterexample :
    responderSignalExponent none = 0 ∧
    engineSignalExponent none = -3 ∧
    responderSignalExponent none ≠ engineSignalExponent none := by
  refine ⟨?_, ?_, ?_⟩ <;> norm_num [responderSignalExponent, engineSignalExponent]

/-- C6 amended: the responder treats a missing `signal_strength` as `0`
dBm (`unwrap_or_default`), giving weight `10^0 = 1`, while the engine
treats it as `−90` dBm; for a present signal the two agree. -/
theorem c6_amended_responder_defaults_zero :
    responderSignalExponent none = 0 ∧
    engineSignalExponent none = -3 ∧
    ∀ s : Int, responderSignalExponent (some s) = engineSignalExponent (some s) := by
  refine ⟨?_, ?_, fun s => rfl⟩ <;>
    norm_num [responderSignalExponent, engineSignalExponent]

/-- `f64::round` semantics: round half away from zero. -/
def roundAway (q : ℚ) : ℤ :=
  if 0 ≤ q then ⌊q + 1 / 2⌋ else -⌊-q + 1 / 2⌋

/-- `LocationResponse` from `src/geolocate.rs` lines 82-86: the responder's
location (lat/lng) and integer accuracy in metres. -/
structure LocationResponse where
  lat : ℚ
  lng : ℚ
  accuracy : ℤ
  deriving DecidableEq, Repr

/-- `LocationResponse::new` (src/geolocate.rs lines 88-99): round lat/lng
to six decimal places, round the accuracy to an integer. -/
def LocationResponse.new (lat lon acc : ℚ) : LocationResponse :=
  { lat := (roundAway (lat * 1000000) : ℚ) / 1000000
    lng := (roundAway (lon * 1000000) : ℚ) / 1000000
    accuracy := roundAway acc }

/-- `Bounds` from `src/bounds.rs` lines 11-16: a bare bounding box. -/
structure Bounds where
  min_lat : ℚ
  min_lon : ℚ
  max_lat : ℚ
  max_lon : ℚ
  deriving DecidableEq, Repr

/-- `impl From<Bounds> for LocationResponse` (src/geolocate.rs lines
111-119): bbox center, accuracy `haversine(min, center)` floored at 50 m.
Points are `(x = lon, y = lat)` pairs; the haversine distance (the `geo`
crate) is a parameter. -/
def locationResponseFromBounds (hav : ℚ × ℚ → ℚ × ℚ → ℚ)
    (b : Bounds) : LocationResponse :=
  let pmin := (b.min_lon, b.min_lat)
  let pmax := (b.max_lon, b.max_lat)
  let center := ((pmin.1 + pmax.1) / 2, (pmin.2 + pmax.2) / 2)
  let acc := hav pmin center
  LocationResponse.new center.2 center.1 (max acc 50)

/-- Access point of a geolocate request (`src/geolocate.rs` lines 74-79). -/
structure AccessPoint where
  mac : Nat
  signal_strength : Option Int
  deriving DecidableEq, Repr

/-- One iteration of the responder's Wi-Fi loop (`src/geolocate.rs` lines
154-187): skip already-seen MACs, fetch the wifi row, keep it when the
center-to-min-corner haversine radius lies in `[1, 500]`, and accumulate
`Σlat·w, Σlon·w, Σacc·w, Σw` and the count with
`w = pow10(signal/(10·3))`. `hav` and `pow10` stand for the external
haversine and `10^x`. -/
def wifiStep (hav : ℚ × ℚ → ℚ × ℚ → ℚ) (pow10 : ℚ → ℚ)
    (wifiTable : Nat → Option WeightedAverageBounds)
    (st : ℚ × ℚ × ℚ × ℚ × ℕ × List Nat) (x : AccessPoint) :
    ℚ × ℚ × ℚ × ℚ × ℕ × List Nat :=
  let (latw, lonw, rw, ww, c, seen) := st
  if x.mac ∈ seen then st
  else
    let seen' := x.mac :: seen
    match wifiTable x.mac with
    | some row =>
      let pmin := (row.min_lon, row.min_lat)
      let center := ((row.min_lon + row.max_lon) / 2,
                     (row.min_lat + row.max_lat) / 2)
      let r := hav pmin center
      if 1 ≤ r ∧ r ≤ 500 then
        let weight := pow10 (responderSignalExponent x.signal_strength)
        (latw + row.lat * weight, lonw + row.lon * weight,
         rw + row.accuracy * weight, ww + weight, c + 1, seen')
      else (latw, lonw, rw, ww, c, seen')
    | none => (latw, lonw, rw, ww, c, seen')

/-- The responder's Wi-Fi weighted-average branch (`src/geolocate.rs`
lines 148-198): fold the request's access points, and when at least two
contributed, answer `LocationResponse::new(Σlat·w/Σw, Σlon·w/Σw,
Σacc·w/Σw)` — note: no 50 m floor is applied here. -/
def wifiBranch (hav : ℚ × ℚ → ℚ × ℚ → ℚ) (pow10 : ℚ → ℚ)
    (wifiTable : Nat → Option WeightedAverageBounds)
    (aps : List AccessPoint) : Option LocationResponse :=
  let (latw, lonw, rw, ww, c, _) :=
    aps.foldl (wifiStep hav pow10 wifiTable) (0, 0, 0, 0, 0, [])
  if 2 ≤ c then some (LocationResponse.new (latw / ww) (lonw / ww) (rw / ww))
  else none

/-- The rows and weights that actually contribute to the Wi-Fi average:
first sighting of each MAC, found in the store, radius inside `[1, 500]`. -/
def usedRows (hav : ℚ × ℚ → ℚ × ℚ → ℚ) (pow10 : ℚ → ℚ)
    (wifiTable : Nat → Option WeightedAverageBounds)
    (seen : List Nat) :
    List AccessPoint → List (WeightedAverageBounds × ℚ)
  | [] => []
  | x :: rest =>
    if x.mac ∈ seen then usedRows hav pow10 wifiTable seen rest
    else
      match wifiTable x.mac with
      | some row =>
        let r := hav (row.min_lon, row.min_lat)
          ((row.min_lon + row.max_lon) / 2, (row.min_lat + row.max_lat) / 2)
        if 1 ≤ r ∧ r ≤ 500 then
          (row, pow10 (responderSignalExponent x.signal_strength)) ::
            usedRows hav pow10 wifiTable (x.mac :: seen) rest
        else usedRows hav pow10 wifiTable (x.mac :: seen) rest
      | none => usedRows hav pow10 wifiTable (x.mac :: seen) rest

/-- Batch weight sum over contributing rows. -/
def wSum (l : List (WeightedAverageBounds × ℚ)) : ℚ :=
  (l.map fun p => p.2).sum

/-- Batch `Σ lat·w` over contributing rows. -/
def wLatSum (l : List (WeightedAverageBounds × ℚ)) : ℚ :=
  (l.map fun p => p.1.lat * p.2).sum

/-- Batch `Σ lon·w` over contributing rows. -/
def wLonSum (l : List (WeightedAverageBounds × ℚ)) : ℚ :=
  (l.map fun p => p.1.lon * p.2).sum

/-- Batch `Σ acc·w` over contributing rows. -/
def wAccSum (l : List (WeightedAverageBounds × ℚ)) : ℚ :=
  (l.map fun p => p.1.accuracy * p.2).sum

/-- The set of MACs seen after the Wi-Fi loop (every first sighting is
inserted, whether or not the row contributed). -/
def seenAfter (seen : List Nat) : List AccessPoint → List Nat
  | [] => seen
  | x :: rest =>
    if x.mac ∈ seen then seenAfter seen rest
    else seenAfter (x.mac :: seen) rest

lemma wSum_cons (p : WeightedAverageBounds × ℚ)
    (l : List (WeightedAverageBounds × ℚ)) :
    wSum (p :: l) = p.2 + wSum l := by simp [wSum]

lemma wLatSum_cons (p : WeightedAverageBounds × ℚ)
    (l : List (WeightedAverageBounds × ℚ)) :
    wLatSum (p :: l) = p.1.lat * p.2 + wLatSum l := by simp [wLatSum]

lemma wLonSum_cons (p : WeightedAverageBounds × ℚ)
    (l : List (WeightedAverageBounds × ℚ)) :
    wLonSum (p :: l) = p.1.lon * p.2 + wLonSum l := by simp [wLonSum]

lemma wAccSum_cons (p : WeightedAverageBounds × ℚ)
    (l : List (WeightedAverageBounds × ℚ)) :
    wAccSum (p :: l) = p.1.accuracy * p.2 + wAccSum l := by simp [wAccSum]

/-- The Wi-Fi accumulation loop computes exactly the batch sums over the
contributing rows. -/
lemma foldl_wifiStep_eq (hav : ℚ × ℚ → ℚ × ℚ → ℚ) (pow10 : ℚ → ℚ)
    (wifiTable : Nat → Option WeightedAverageBounds) :
    ∀ (aps : List AccessPoint) (latw lonw rw ww : ℚ) (c : ℕ)
      (seen : List Nat),
    aps.foldl (wifiStep hav pow10 wifiTable) (latw, lonw, rw, ww, c, seen) =
      (latw + wLatSum (usedRows hav pow10 wifiTable seen aps),
       lonw + wLonSum (usedRows hav pow10 wifiTable seen aps),
       rw + wAccSum (usedRows hav pow10 wifiTable seen aps),
       ww + wSum (usedRows hav pow10 wifiTable seen aps),
       c + (usedRows hav pow10 wifiTable seen aps).length,
       seenAfter seen aps) := by
  intro aps
  induction aps with
  | nil =>
    intro latw lonw rw ww c seen
    simp [usedRows, seenAfter, wSum, wLatSum, wLonSum, wAccSum]
  | cons x rest ih =>
    intro latw lonw rw ww c seen
    rw [List.foldl_cons]
    by_cases hmem : x.mac ∈ seen
    · have hstep : wifiStep hav pow10 wifiTable (latw, lonw, rw, ww, c, seen) x
          = (latw, lonw, rw, ww, c, seen) := by
        simp [wifiStep, hmem]
      rw [hstep, ih]
      simp [usedRows, seenAfter, hmem]
    · cases htab : wifiTable x.mac with
      | none =>
        have hstep : wifiStep hav pow10 wifiTable
            (latw, lonw, rw, ww, c, seen) x
            = (latw, lonw, rw, ww, c, x.mac :: seen) := by
          simp [wifiStep, hmem, htab]
        rw [hstep, ih]
        simp [usedRows, seenAfter, hmem, htab]
      | some row =>
        by_cases hgate :
            1 ≤ hav (row.min_lon, row.min_lat)
              ((row.min_lon + row.max_lon) / 2,
               (row.min_lat + row.max_lat) / 2) ∧
            hav (row.min_lon, row.min_lat)
              ((row.min_lon + row.max_lon) / 2,
               (row.min_lat + row.max_lat) / 2) ≤ 500
        · have hstep : wifiStep hav pow10 wifiTable
              (latw, lonw, rw, ww, c, seen) x
              = (latw + row.lat * pow10 (responderSignalExponent x.signal_strength),
                 lonw + row.lon * pow10 (responderSignalExponent x.signal_strength),
                 rw + row.accuracy * pow10 (responderSignalExponent x.signal_strength),
                 ww + pow10 (responderSignalExponent x.signal_strength),
                 c + 1, x.mac :: seen) := by
            simp [wifiStep, hmem, htab, hgate]
          have hused : usedRows hav pow10 wifiTable seen (x :: rest)
              = (row, pow10 (responderSignalExponent x.signal_strength)) ::
                usedRows hav pow10 wifiTable (x.mac :: seen) rest := by
            simp only [usedRows]
            rw [if_neg hmem]
            simp only [htab]
            rw [if_pos hgate]
          have hseen : seenAfter seen (x :: rest)
              = seenAfter (x.mac :: seen) rest := by
            simp [seenAfter, hmem]
          rw [hstep, ih, hused, hseen]
          simp only [wSum_cons, wLatSum_cons, wLonSum_cons, wAccSum_cons,
            List.length_cons, Prod.mk.injEq]
          refine ⟨by ring, by ring, by ring, by ring, by omega, by trivial⟩
        · have hstep : wifiStep hav pow10 wifiTable
              (latw, lonw, rw, ww, c, seen) x
              = (latw, lonw, rw, ww, c, x.mac :: seen) := by
            simp [wifiStep, hmem, htab, hgate]
          rw [hstep, ih]
          simp [usedRows, seenAfter, hmem, htab, hgate]

/-- C5 amended: whenever the Wi-Fi weighted-average branch answers, at
least two rows contributed and the response accuracy is
`round(Σacc·w/Σw)` — with no 50 m floor applied in this branch (the floor
exists only in the cell and MLS branches). -/
theorem c5_amended_accuracy_unfloored (hav : ℚ × ℚ → ℚ × ℚ → ℚ)
    (pow10 : ℚ → ℚ) (wifiTable : Nat → Option WeightedAverageBounds)
    (aps : List AccessPoint) (resp : LocationResponse)
    (h : wifiBranch hav pow10 wifiTable aps = some resp) :
    2 ≤ (usedRows hav pow10 wifiTable [] aps).length ∧
    resp.accuracy = roundAway
      (wAccSum (usedRows hav pow10 wifiTable [] aps) /
       wSum (usedRows hav pow10 wifiTable [] aps)) := by
  unfold wifiBranch at h
  rw [foldl_wifiStep_eq] at h
  simp only [zero_add] at h
  by_cases hc : 2 ≤ (usedRows hav pow10 wifiTable [] aps).length
  · refine ⟨hc, ?_⟩
    rw [if_pos hc] at h
    have := Option.some.inj h
    rw [← this]
    rfl
  · rw [if_neg hc] at h
    exact absurd h (by simp)

/-- Concrete wifi table for the responder scenarios: two single-point
rows with accuracy 10 and weight 4. -/
def wifiTable0 : Nat → Option WeightedAverageBounds := fun m =>
  if m = 1 then some (WeightedAverageBounds.new 48 2 10 4)
  else if m = 2 then some (WeightedAverageBounds.new 50 4 10 4)
  else none

/-- Concrete request: the two APs above, both without signal strength. -/
def aps0 : List AccessPoint := [⟨1, none⟩, ⟨2, none⟩]

/-- Concrete stand-in for the haversine call: both rows pass the
`[1, 500]` radius gate. -/
def hav0 : ℚ × ℚ → ℚ × ℚ → ℚ := fun _ _ => 100

/-- Concrete stand-in for `10^x`: both APs report no signal, so the real
weight is `10^0 = 1` for both; any common positive weight gives the same
average. -/
def pow0 : ℚ → ℚ := fun _ => 1

/-- C5 counterexample: on a request answered by the Wi-Fi branch with
`Σacc·w/Σw = 10`, the response accuracy is `10`, while the claim's value
`max(50, Σacc·w/Σw)` is `50` — the accuracy is not floored at 50 in this
branch. -/
theorem c5_counterexample :
    (wifiBranch hav0 pow0 wifiTable0 aps0).map LocationResponse.accuracy
      = some 10 ∧
    max (50 : ℚ)
      (wAccSum (usedRows hav0 pow0 wifiTable0 [] aps0) /
       wSum (usedRows hav0 pow0 wifiTable0 [] aps0)) = 50 ∧
    (10 : ℤ) ≠ 50 := by
  refine ⟨?_, ?_, by decide⟩ <;>
    norm_num [wifiBranch, wifiStep, usedRows, wifiTable0, aps0, hav0, pow0,
      responderSignalExponent, WeightedAverageBounds.new, LocationResponse.new,
      roundAway, wSum, wAccSum]

/-- Concrete instance of the amended C5 with its hypothesis discharged. -/
theorem c5_witness :
    2 ≤ (usedRows hav0 pow0 wifiTable0 [] aps0).length ∧
    (⟨49, 3, 10⟩ : LocationResponse).accuracy = roundAway
      (wAccSum (usedRows hav0 pow0 wifiTable0 [] aps0) /
       wSum (usedRows hav0 pow0 wifiTable0 [] aps0)) :=
  c5_amended_accuracy_unfloored hav0 pow0 wifiTable0 aps0 ⟨49, 3, 10⟩
    (by norm_num [wifiBranch, wifiStep, wifiTable0, aps0, hav0, pow0,
      responderSignalExponent, WeightedAverageBounds.new, LocationResponse.new,
      roundAway])

/-- Cell tower of a geolocate request (`src/geolocate.rs` lines 62-71). -/
structure CellTower where
  radio_type : CellRadio
  mobile_country_code : Int
  mobile_network_code : Int
  location_area_code : Int
  cell_id : Int
  psc : Option Int
  deriving DecidableEq, Repr

/-- The row of the legacy `mls_cell` table consulted by the responder:
stored `(lat, lon, radius)`. -/
structure MlsRow where
  lat : ℚ
  lon : ℚ
  radius : ℚ
  deriving DecidableEq, Repr

/-- The cell part of the responder (`src/geolocate.rs` lines 200-231): for
each submitted cell in order, with the scrambling code when present
(`unit`-qualified key) and without it otherwise, first query the primary
`cell` table (returning the bbox-center response on a hit), then the
legacy `mls_cell` table (returning its stored row with the radius floored
at 50), and only then move on to the next submitted cell. The four
queries are passed as table parameters. -/
def cellBranch (hav : ℚ × ℚ → ℚ × ℚ → ℚ)
    (cellFull : CellRadio → Int → Int → Int → Int → Int → Option Bounds)
    (cellNoUnit : CellRadio → Int → Int → Int → Int → Option Bounds)
    (mlsFull : CellRadio → Int → Int → Int → Int → Int → Option MlsRow)
    (mlsNoUnit : CellRadio → Int → Int → Int → Int → Option MlsRow) :
    List CellTower → Option LocationResponse
  | [] => none
  | x :: rest =>
    match x.psc with
    | some unit =>
      match cellFull x.radio_type x.mobile_country_code x.mobile_network_code
          x.location_area_code x.cell_id unit with
      | some row => some (locationResponseFromBounds hav row)
      | none =>
        match mlsFull x.radio_type x.mobile_country_code x.mobile_network_code
            x.location_area_code x.cell_id unit with
        | some row => some (LocationResponse.new row.lat row.lon (max row.radius 50))
        | none => cellBranch hav cellFull cellNoUnit mlsFull mlsNoUnit rest
    | none =>
      match cellNoUnit x.radio_type x.mobile_country_code x.mobile_network_code
          x.location_area_code x.cell_id with
      | some row => some (locationResponseFromBounds hav row)
      | none =>
        match mlsNoUnit x.radio_type x.mobile_country_code x.mobile_network_code
            x.location_area_code x.cell_id with
        | some row => some (LocationResponse.new row.lat row.lon (max row.radius 50))
        | none => cellBranch hav cellFull cellNoUnit mlsFull mlsNoUnit rest

/-- The response the primary `cell` table gives for one submitted cell
(the first query of the loop body). -/
def primaryResult (hav : ℚ × ℚ → ℚ × ℚ → ℚ)
    (cellFull : CellRadio → Int → Int → Int → Int → Int → Option Bounds)
    (cellNoUnit : CellRadio → Int → Int → Int → Int → Option Bounds)
    (x : CellTower) : Option LocationResponse :=
  match x.psc with
  | some unit =>
    (cellFull x.radio_type x.mobile_country_code x.mobile_network_code
      x.location_area_code x.cell_id unit).map (locationResponseFromBounds hav)
  | none =>
    (cellNoUnit x.radio_type x.mobile_country_code x.mobile_network_code
      x.location_area_code x.cell_id).map (locationResponseFromBounds hav)

/-- The response the legacy `mls_cell` table gives for one submitted cell
(the second query of the loop body). -/
def mlsResult
    (mlsFull : CellRadio → Int → Int → Int → Int → Int → Option MlsRow)
    (mlsNoUnit : CellRadio → Int → Int → Int → Int → Option MlsRow)
    (x : CellTower) : Option LocationResponse :=
  match x.psc with
  | some unit =>
    (mlsFull x.radio_type x.mobile_country_code x.mobile_network_code
      x.location_area_code x.cell_id unit).map
      (fun row => LocationResponse.new row.lat row.lon (max row.radius 50))
  | none =>
    (mlsNoUnit x.radio_type x.mobile_country_code x.mobile_network_code
      x.location_area_code x.cell_id).map
      (fun row => LocationResponse.new row.lat row.lon (max row.radius 50))

/-- First `some` in a list of options. -/
def firstSome {α : Type} : List (Option α) → Option α
  | [] => none
  | o :: rest =>
    match o with
    | some x => some x
    | none => firstSome rest

/-- Concrete data for the C4 counterexample: two submitted cells; the
first is only in the legacy MLS table, the second has a row in the
primary store. -/
def cell1 : CellTower := ⟨CellRadio.lte, 208, 10, 1234, 56789, some 1⟩

/-- Second submitted cell, present in the primary store. -/
def cell2 : CellTower := ⟨CellRadio.lte, 208, 10, 1234, 56790, some 2⟩

/-- Primary `cell` table: only `cell2`'s key matches. -/
def cellFull0 : CellRadio → Int → Int → Int → Int → Int → Option Bounds :=
  fun r c n a ce u =>
    if (r, c, n, a, ce, u) = (CellRadio.lte, 208, 10, 1234, 56790, 2)
    then some ⟨43, 5, 44, 6⟩ else none

/-- Legacy `mls_cell` table: only `cell1`'s key matches. -/
def mlsFull0 : CellRadio → Int → Int → Int → Int → Int → Option MlsRow :=
  fun r c n a ce u =>
    if (r, c, n, a, ce, u) = (CellRadio.lte, 208, 10, 1234, 56789, 1)
    then some ⟨10, 20, 300⟩ else none

/-- Empty no-unit tables (both submitted cells carry a scrambling code). -/
def cellNoUnit0 : CellRadio → Int → Int → Int → Int → Option Bounds :=
  fun _ _ _ _ _ => none

/-- Empty no-unit MLS table. -/
def mlsNoUnit0 : CellRadio → Int → Int → Int → Int → Option MlsRow :=
  fun _ _ _ _ _ => none

/-- C4 counterexample: the submitted cell `cell2` has a matching row in
the primary store, yet the response is the legacy MLS row of `cell1` —
the MLS table is consulted for `cell1` before the primary store is tried
for `cell2`, and the returned response differs from `cell2`'s primary
bbox-center response. -/
theorem c4_counterexample :
    cellBranch hav0 cellFull0 cellNoUnit0 mlsFull0 mlsNoUnit0 [cell1, cell2]
      = some (LocationResponse.new 10 20 (max 300 50)) ∧
    cellFull0 CellRadio.lte 208 10 1234 56790 2 = some ⟨43, 5, 44, 6⟩ ∧
    some (LocationResponse.new 10 20 (max 300 50))
      ≠ (cellFull0 CellRadio.lte 208 10 1234 56790 2).map
          (locationResponseFromBounds hav0) := by
  refine ⟨?_, ?_, ?_⟩
  · simp [cellBranch, cell1, cell2, cellFull0, mlsFull0]
  · simp [cellFull0]
  · simp only [cellFull0, if_pos rfl, Option.map_some']
    intro h
    have h2 := (Option.some.inj h)
    have h3 := congrArg LocationResponse.lat h2
    norm_num [LocationResponse.new, locationResponseFromBounds, hav0,
      roundAway] at h3

/-- C4 amended: the cell part of the responder is the first hit in the
per-cell interleaved order — for each submitted cell in order, the
primary store is tried first, then the legacy MLS table, and the next
cell is considered only when both miss; hence the MLS table can answer
even though a later submitted cell matches the primary store. -/
theorem c4_amended_interleaved_precedence (hav : ℚ × ℚ → ℚ × ℚ → ℚ)
    (cellFull : CellRadio → Int → Int → Int → Int → Int → Option Bounds)
    (cellNoUnit : CellRadio → Int → Int → Int → Int → Option Bounds)
    (mlsFull : CellRadio → Int → Int → Int → Int → Int → Option MlsRow)
    (mlsNoUnit : CellRadio → Int → Int → Int → Int → Option MlsRow)
    (cells : List CellTower) :
    cellBranch hav cellFull cellNoUnit mlsFull mlsNoUnit cells =
      firstSome (cells.flatMap fun x =>
        [primaryResult hav cellFull cellNoUnit x,
         mlsResult mlsFull mlsNoUnit x]) := by
  induction cells with
  | nil => rfl
  | cons x rest ih =>
    rw [List.flatMap_cons]
    cases hpsc : x.psc with
    | some unit =>
      cases hcf : cellFull x.radio_type x.mobile_country_code
          x.mobile_network_code x.location_area_code x.cell_id unit with
      | some row =>
        simp [cellBranch, firstSome, primaryResult, hpsc, hcf]
      | none =>
        cases hmf : mlsFull x.radio_type x.mobile_country_code
            x.mobile_network_code x.location_area_code x.cell_id unit with
        | some row =>
          simp [cellBranch, firstSome, primaryResult, mlsResult, hpsc, hcf, hmf]
        | none =>
          simp [cellBranch, firstSome, primaryResult, mlsResult, hpsc, hcf,
            hmf, ih]
    | none =>
      cases hcf : cellNoUnit x.radio_type x.mobile_country_code
          x.mobile_network_code x.location_area_code x.cell_id with
      | some row =>
        simp [cellBranch, firstSome, primaryResult, hpsc, hcf]
      | none =>
        cases hmf : mlsNoUnit x.radio_type x.mobile_country_code
            x.mobile_network_code x.location_area_code x.cell_id with
        | some row =>
          simp [cellBranch, firstSome, primaryResult, mlsResult, hpsc, hcf, hmf]
        | none =>
          simp [cellBranch, firstSome, primaryResult, mlsResult, hpsc, hcf,
            hmf, ih]

/-- A row of the `report` table as the engine sees it: the raw payload
bytes, whether `processed_at` is set, and the recorded
`processing_error`. -/
structure EngineReport where
  raw : List Nat
  processed : Bool
  processing_error : Option String
  deriving DecidableEq, Repr

/-- The database state the engine works on: the report queue (in id
order) and the three transmitter tables. -/
structure EngineState where
  reports : List EngineReport
  store : Store

/-- In-memory `modified` map of the engine (`BTreeMap<Transmitter,
TransmitterLocation>`), as an association list: key lookup. -/
def modLookup :
    List (Transmitter × WeightedAverageBounds) → Transmitter →
    Option WeightedAverageBounds
  | [], _ => none
  | p :: rest, t => if p.1 = t then some p.2 else modLookup rest t

/-- In-place update of an existing key of the `modified` map. -/
def modUpdate :
    List (Transmitter × WeightedAverageBounds) → Transmitter →
    WeightedAverageBounds → List (Transmitter × WeightedAverageBounds)
  | [], _, _ => []
  | p :: rest, t, b =>
    if p.1 = t then (t, b) :: rest else p :: modUpdate rest t b

/-- One observation of one report (`src/submission/process.rs` lines
101-181): compute the credited `(lat, lon, accuracy, weight)` (the
`credit` parameter stands for lines 101-173 — RSSI default, reverse dead
reckoning, the three weight factors), then update the in-memory map if
the key is already there, fold into the stored estimate if the store has
one, and create a fresh single-point estimate otherwise. -/
def processObs (store : Store)
    (credit : Position → Transmitter → ℚ × ℚ × ℚ × ℚ) (pos : Position)
    (modified : List (Transmitter × WeightedAverageBounds))
    (x : Transmitter) : List (Transmitter × WeightedAverageBounds) :=
  let u := credit pos x
  match modLookup modified x with
  | some b => modUpdate modified x (b.add u)
  | none =>
    match x.lookup store with
    | some b => modified ++ [(x, b.add u)]
    | none =>
      modified ++ [(x, WeightedAverageBounds.new u.1 u.2.1 u.2.2.1 u.2.2.2)]

/-- One report of the batch (`src/submission/process.rs` lines 69-187):
the report is marked processed up front; a parse error records the
message (and the report stays processed); an ignored report contributes
nothing; otherwise every observation is folded into the `modified` map.
The `parse` parameter stands for `report::load`. -/
def processReport
    (parse : List Nat → Except String (Option (Position × List Transmitter)))
    (credit : Position → Transmitter → ℚ × ℚ × ℚ × ℚ) (store : Store)
    (modified : List (Transmitter × WeightedAverageBounds))
    (r : EngineReport) :
    EngineReport × List (Transmitter × WeightedAverageBounds) :=
  match parse r.raw with
  | .error e => ({ r with processed := true, processing_error := some e },
                 modified)
  | .ok none => ({ r with processed := true }, modified)
  | .ok (some (pos, txs)) =>
      ({ r with processed := true },
       txs.foldl (processObs store credit pos) modified)

/-- The engine's pass over the report queue: pending reports (fetched by
`processed_at is null`) are processed in order against the committed
store; already-processed reports are untouched. Returns the updated queue
and the accumulated `modified` map. -/
def engineBatch
    (parse : List Nat → Except String (Option (Position × List Transmitter)))
    (credit : Position → Transmitter → ℚ × ℚ × ℚ × ℚ) (store : Store) :
    List EngineReport → List (Transmitter × WeightedAverageBounds) →
    List EngineReport × List (Transmitter × WeightedAverageBounds)
  | [], modified => ([], modified)
  | r :: rest, modified =>
    if r.processed then
      let res := engineBatch parse credit store rest modified
      (r :: res.1, res.2)
    else
      let pr := processReport parse credit store modified r
      let res := engineBatch parse credit store rest pr.2
      (pr.1 :: res.1, res.2)

/-- One engine run (`src/submission/process.rs` `run`): process every
pending report, then flush each entry of `modified` into the store with
`upsert`, committing the processed marks and the estimate writes
together. -/
def engineRunOnce
    (parse : List Nat → Except String (Option (Position × List Transmitter)))
    (credit : Position → Transmitter → ℚ × ℚ × ℚ × ℚ)
    (s : EngineState) : EngineState :=
  let res := engineBatch parse credit s.store s.reports []
  { reports := res.1
    store := res.2.foldl (fun st p => st.upsert p.1 p.2) s.store }

lemma processReport_processed
    (parse : List Nat → Except String (Option (Position × List Transmitter)))
    (credit : Position → Transmitter → ℚ × ℚ × ℚ × ℚ) (store : Store)
    (modified : List (Transmitter × WeightedAverageBounds))
    (r : EngineReport) :
    (processReport parse credit store modified r).1.processed = true := by
  unfold processReport
  cases parse r.raw with
  | error e => rfl
  | ok o =>
    cases o with
    | none => rfl
    | some p =>
      obtain ⟨pos, txs⟩ := p
      rfl

lemma engineBatch_processed
    (parse : List Nat → Except String (Option (Position × List Transmitter)))
    (credit : Position → Transmitter → ℚ × ℚ × ℚ × ℚ) (store : Store) :
    ∀ (l : List EngineReport)
      (m : List (Transmitter × WeightedAverageBounds)),
    ∀ r ∈ (engineBatch parse credit store l m).1, r.processed = true := by
  intro l
  induction l with
  | nil => intro m r hr; simp [engineBatch] at hr
  | cons x rest ih =>
    intro m r hr
    by_cases hx : x.processed = true
    · simp only [engineBatch, hx, if_true] at hr
      rcases List.mem_cons.mp hr with h | h
      · subst h; exact hx
      · exact ih m r h
    · have hx' : x.processed = false := by
        revert hx; cases x.processed <;> simp
      simp only [engineBatch, hx', Bool.false_eq_true, if_false] at hr
      rcases List.mem_cons.mp hr with h | h
      · subst h; exact processReport_processed parse credit store m x
      · exact ih _ r h

lemma engineBatch_no_pending
    (parse : List Nat → Except String (Option (Position × List Transmitter)))
    (credit : Position → Transmitter → ℚ × ℚ × ℚ × ℚ) (store : Store) :
    ∀ (l : List EngineReport)
      (m : List (Transmitter × WeightedAverageBounds)),
    (∀ r ∈ l, r.processed = true) →
    engineBatch parse credit store l m = (l, m) := by
  intro l
  induction l with
  | nil => intro m _; rfl
  | cons x rest ih =>
    intro m hall
    have hx : x.processed = true := hall x (List.mem_cons_self _ _)
    have hrest : ∀ r ∈ rest, r.processed = true :=
      fun r hr => hall r (List.mem_cons_of_mem _ hr)
    simp [engineBatch, hx, ih m hrest]

/-- A state whose reports are all processed is a fixed point of the
engine. -/
lemma engineRunOnce_fixed
    (parse : List Nat → Except String (Option (Position × List Transmitter)))
    (credit : Position → Transmitter → ℚ × ℚ × ℚ × ℚ)
    (t : EngineState) (ht : ∀ r ∈ t.reports, r.processed = true) :
    engineRunOnce parse credit t = t := by
  unfold engineRunOnce
  rw [engineBatch_no_pending parse credit t.store t.reports [] ht]
  rfl

/-- C10: the engine is at-most-once per report — running it to completion
twice leaves exactly the state one run produces: every report fetched as
pending is marked processed (or errored) by the same run that folds its
estimates, so the second run finds no pending report and changes neither
the queue nor the store. Holds for every codec (`parse`) and every
per-observation weight computation (`credit`). -/
theorem c10_engine_at_most_once
    (parse : List Nat → Except String (Option (Position × List Transmitter)))
    (credit : Position → Transmitter → ℚ × ℚ × ℚ × ℚ)
    (s : EngineState) :
    engineRunOnce parse credit (engineRunOnce parse credit s)
      = engineRunOnce parse credit s := by
  apply engineRunOnce_fixed
  intro r hr
  simp only [engineRunOnce] at hr
  exact engineBatch_processed parse credit s.store s.reports [] r hr

end Beacondb
